import Mathlib

/-!
Verification development for the velocity-driven trigger engine of the
Snap Chrome extension (file src/utils/velocityTracker.ts, plus the
inactivity timer of src/content/index.tsx).

The TypeScript code is shallowly embedded: pure helpers become pure Lean
functions over String/Nat/Rat (JS numbers that only ever hold exact small
values are modelled as Nat for timestamps and Rat for fractions), and the
stateful VelocityTracker class becomes an explicit state record together
with a deterministic small-step interpreter over a timeline of external
events and scheduled timer callbacks, mirroring the single-threaded JS
event loop: timers fire in (expiry, creation-id) order, each callback runs
to completion, and the current text of the monitored field is supplied by
an environment function from time to String (the getCurrentText pull
accessor).
-/

namespace VelocityTracker

/-- Composition states of the classifier (type VelocityState in the source). -/
inductive VelocityState where
  | FLOW
  | EDITING
  | REVIEWING
  | STOPPED
deriving DecidableEq, Repr

/-- Configuration record (interface VelocityConfig in the source). Rates and
fractions are Rat; durations and counts are Nat milliseconds/characters. -/
structure VelocityConfig where
  sampleInterval : Nat
  charBufferSize : Nat
  flowThreshold : Rat
  editingThreshold : Rat
  reviewingThreshold : Rat
  microPauseIgnoreThreshold : Nat
  naturalCompletionWait : Nat
  planningPauseWait : Nat
  cooldownPeriod : Nat
  minPromptLength : Nat
  minChangePercent : Rat
deriving DecidableEq, Repr

/-- Default configuration (DEFAULT_CONFIG in the source). -/
def DEFAULT_CONFIG : VelocityConfig :=
  { sampleInterval := 500
    charBufferSize := 10
    flowThreshold := 2
    editingThreshold := mkRat 1 2
    reviewingThreshold := mkRat 1 10
    microPauseIgnoreThreshold := 1500
    naturalCompletionWait := 6000
    planningPauseWait := 8000
    cooldownPeriod := 30000
    minPromptLength := 15
    minChangePercent := mkRat 1 5 }

/-- One entry of the recent-history buffer (interface CharTimestamp). -/
structure CharTimestamp where
  char : Char
  timestamp : Nat
deriving DecidableEq, Repr

/-- Denylist of low-value placeholder phrases (THROWAWAY_PHRASES). -/
def THROWAWAY_PHRASES : List String :=
  ["hello", "hi", "test", "testing", "测试", "你好"]

/-- Sentence-terminal marks (PUNCTUATION). -/
def PUNCTUATION : List Char := ['.', '?', '!', '。', '？', '！']

/-- Model of the JS String.prototype.trim call: drop whitespace from both
ends (the whitespace classes JS recognizes beyond ASCII are irrelevant to
the texts this engine compares). -/
def jsTrim (s : String) : String :=
  ⟨((s.data.dropWhile Char.isWhitespace).reverse.dropWhile Char.isWhitespace).reverse⟩

/-- Model of the JS String.prototype.toLowerCase call: lower-case each
character (ASCII case mapping; the denylist phrases are ASCII or Chinese). -/
def jsToLower (s : String) : String :=
  ⟨s.data.map Char.toLower⟩

/-- Check whether the trimmed text ends in a sentence-terminal mark
(method endsWithPunctuation, which reads the last character of the trimmed
text). -/
def endsWithPunctuation (text : String) : Bool :=
  let trimmed := jsTrim text
  if trimmed.data.isEmpty then false
  else PUNCTUATION.contains (trimmed.data.getLastD ' ')

/-- Value dp i j of the dynamic-programming table filled by the source's
levenshteinDistance: the edit distance between the first i characters of s1
and the first j characters of s2, defined by the exact recurrence the two
nested loops implement. -/
def levAux (s1 s2 : List Char) : Nat → Nat → Nat
  | i, 0 => i
  | 0, j + 1 => j + 1
  | i + 1, j + 1 =>
      if s1[i]? = s2[j]? then
        levAux s1 s2 i j
      else
        Nat.min (Nat.min (levAux s1 s2 i (j + 1)) (levAux s1 s2 (i + 1) j))
            (levAux s1 s2 i j) + 1
termination_by i j => i + j

/-- Levenshtein distance between two strings (method levenshteinDistance):
the bottom-right entry of the dp table. -/
def levenshteinDistance (str1 str2 : String) : Nat :=
  levAux str1.data str2.data str1.length str2.length

/-- Normalized change fraction (method calculateChangePercent). An empty
second argument is falsy in JS, so the source returns 1.0 at once. -/
def calculateChangePercent (text1 text2 : String) : Rat :=
  if text2.isEmpty then 1
  else
    let distance := levenshteinDistance text1 text2
    let maxLength := max text1.length text2.length
    if 0 < maxLength then (distance : Rat) / (maxLength : Rat) else 0

/-- Eligibility gate (method passesPreFilters): length, cooldown, change
distance, denylist, checked in that order with early return. -/
def passesPreFilters (config : VelocityConfig) (text : String) (now : Nat)
    (lastAssessedText : String) (lastAssessmentTime : Nat) : Bool :=
  if text.length < config.minPromptLength then false
  else if now - lastAssessmentTime < config.cooldownPeriod then false
  else if calculateChangePercent text lastAssessedText < config.minChangePercent then false
  else if THROWAWAY_PHRASES.any (fun phrase => jsTrim (jsToLower text) == phrase) then false
  else true

/-- Reasons logged by passesPreFilters on each early-return branch. -/
inductive RejectReason where
  | tooShort
  | cooldownActive
  | insufficientChange
  | throwawayPhrase
deriving DecidableEq, Repr

/-- Diagnostic view of passesPreFilters: the same cascade of checks, but
returning which check failed first (none means accept). -/
def preFilterResult (config : VelocityConfig) (text : String) (now : Nat)
    (lastAssessedText : String) (lastAssessmentTime : Nat) : Option RejectReason :=
  if text.length < config.minPromptLength then some RejectReason.tooShort
  else if now - lastAssessmentTime < config.cooldownPeriod then some RejectReason.cooldownActive
  else if calculateChangePercent text lastAssessedText < config.minChangePercent then
    some RejectReason.insufficientChange
  else if THROWAWAY_PHRASES.any (fun phrase => jsTrim (jsToLower text) == phrase) then
    some RejectReason.throwawayPhrase
  else none

/-! State machine embedding of the VelocityTracker class. Scheduled
callbacks (window.setTimeout) are modelled as pending timers with a
creation id, an absolute expiry time and a task; the JS event loop fires
due timers in (expiry, id) order. -/

/-- Tasks of the three kinds of timeouts the class schedules: the anonymous
grace-period check scheduled on a transition into STOPPED (its handle is
never stored), the midpoint feedback tick, and the countdown expiry (which
remembers the id of its midpoint timer in order to clear it). -/
inductive TimerTask where
  | graceCheck
  | midpoint
  | countdownFire (midId : Nat)
deriving DecidableEq, Repr

/-- One scheduled, not-yet-fired and not-yet-cleared timeout. -/
structure PendingTimer where
  id : Nat
  expiry : Nat
  task : TimerTask
deriving DecidableEq, Repr

/-- Mutable fields of the VelocityTracker instance, plus the set of live
timers and a fresh-id counter for them. The countdownTimer field is the
stored handle, exactly as in the source; pending is the event loop's view. -/
structure TrackerState where
  config : VelocityConfig
  charTimestamps : List CharTimestamp
  currentState : VelocityState
  previousState : VelocityState
  countdownTimer : Option Nat
  isComposing : Bool
  lastAssessedText : String
  lastAssessmentTime : Nat
  nextTimerId : Nat
  pending : List PendingTimer
deriving DecidableEq, Repr

/-- Observable outputs: calls of the registered callbacks. The manual flag
records whether a trigger came from forceTrigger (true) or from a countdown
expiry (false); the source passes only the text to onTrigger, the flag is
trace bookkeeping for stating properties about the two paths. -/
inductive OutEvent where
  | trigger (manual : Bool) (text : String)
  | stateChange (state : VelocityState) (opacity : Rat)
deriving DecidableEq, Repr

/-- Opacity for each state (method getOpacityForState). -/
def getOpacityForState : VelocityState → Rat
  | VelocityState.FLOW => mkRat 1 5
  | VelocityState.EDITING => mkRat 3 5
  | VelocityState.REVIEWING => mkRat 3 5
  | VelocityState.STOPPED => mkRat 4 5

/-- Record a keystroke (method trackKeystroke): ignored while composing,
otherwise appended, and the oldest entry shifted off when the buffer
exceeds charBufferSize. -/
def trackKeystroke (st : TrackerState) (c : Char) (now : Nat) : TrackerState :=
  if st.isComposing then st
  else
    let buf := st.charTimestamps ++ [{ char := c, timestamp := now }]
    let buf2 := if st.config.charBufferSize < buf.length then buf.tail else buf
    { st with charTimestamps := buf2 }

/-- Cancel the countdown referenced by the stored handle (method
cancelCountdown): clearTimeout of that one timer and null the handle. -/
def cancelCountdown (st : TrackerState) : TrackerState :=
  match st.countdownTimer with
  | some tid =>
      { st with countdownTimer := none
                pending := st.pending.filter (fun p => p.id != tid) }
  | none => st

/-- Record a successful trigger (method executeAssessment): overwrite
lastAssessedText and lastAssessmentTime and invoke the trigger callback. -/
def executeAssessment (st : TrackerState) (text : String) (now : Nat) (manual : Bool) :
    TrackerState × List (Nat × OutEvent) :=
  ({ st with lastAssessedText := text, lastAssessmentTime := now },
    [(now, OutEvent.trigger manual text)])

/-- Manual fast path (method forceTrigger): with the lower length floor of
10 it cancels any handled countdown and assesses immediately; otherwise it
does nothing. The engine is assumed wired (start was called). -/
def forceTrigger (st : TrackerState) (env : Nat → String) (now : Nat) :
    TrackerState × List (Nat × OutEvent) :=
  let text := env now
  if 10 ≤ text.length then executeAssessment (cancelCountdown st) text now true
  else (st, [])

/-- Arm a countdown (method startCountdown): pick the wait from the current
text's terminal punctuation, schedule the 3000 ms midpoint tick and the
countdown expiry, and overwrite the handle with the new countdown's id.
The source never clears the previously handled countdown here. -/
def startCountdown (st : TrackerState) (env : Nat → String) (now : Nat) :
    TrackerState × List (Nat × OutEvent) :=
  let promptText := env now
  let waitTime :=
    if endsWithPunctuation promptText then st.config.naturalCompletionWait
    else st.config.planningPauseWait
  let midId := st.nextTimerId
  let cdId := st.nextTimerId + 1
  ({ st with
      nextTimerId := st.nextTimerId + 2
      countdownTimer := some cdId
      pending := st.pending ++
        [{ id := midId, expiry := now + 3000, task := TimerTask.midpoint },
         { id := cdId, expiry := now + waitTime, task := TimerTask.countdownFire midId }] },
    [])

/-- React to a confirmed state change (method onStateChange): shift
current into previous, notify the feedback consumer, and either schedule
the grace-period check (entering STOPPED) or cancel the handled countdown
(leaving STOPPED). The grace check's handle is not stored anywhere. -/
def onStateChange (st : TrackerState) (newState : VelocityState) (now : Nat) :
    TrackerState × List (Nat × OutEvent) :=
  let st1 := { st with previousState := st.currentState, currentState := newState }
  let out := [(now, OutEvent.stateChange newState (getOpacityForState newState))]
  if newState = VelocityState.STOPPED ∧ st1.previousState ≠ VelocityState.STOPPED then
    let gid := st1.nextTimerId
    ({ st1 with
        nextTimerId := gid + 1
        pending := st1.pending ++
          [{ id := gid, expiry := now + st1.config.microPauseIgnoreThreshold,
             task := TimerTask.graceCheck }] }, out)
  else if newState ≠ VelocityState.STOPPED then
    (cancelCountdown st1, out)
  else
    (st1, out)

/-- Classifier tick (method sampleVelocity): count buffer entries arrived
within the last second, map the rate to a state by the three thresholds
checked high to low, and hand any change to onStateChange. The buffer is
only read here, never pruned. -/
def sampleVelocity (st : TrackerState) (now : Nat) : TrackerState × List (Nat × OutEvent) :=
  let recentChars := st.charTimestamps.filter (fun t => decide (now - t.timestamp < 1000))
  let charsPerSecond := recentChars.length
  let newState :=
    if st.config.flowThreshold ≤ (charsPerSecond : Rat) then VelocityState.FLOW
    else if st.config.editingThreshold ≤ (charsPerSecond : Rat) then VelocityState.EDITING
    else if st.config.reviewingThreshold ≤ (charsPerSecond : Rat) then VelocityState.REVIEWING
    else VelocityState.STOPPED
  if newState ≠ st.currentState then onStateChange st newState now else (st, [])

/-- Run a fired timer's callback. The grace check re-checks STOPPED before
arming; the midpoint tick re-checks STOPPED before emitting; the countdown
expiry re-checks STOPPED, fetches the live text, gates it through
passesPreFilters and then assesses; finally the countdown callback clears
its midpoint timer unconditionally. -/
def fireTimer (st : TrackerState) (env : Nat → String) (now : Nat) :
    TimerTask → TrackerState × List (Nat × OutEvent)
  | TimerTask.graceCheck =>
      if st.currentState = VelocityState.STOPPED then startCountdown st env now else (st, [])
  | TimerTask.midpoint =>
      if st.currentState = VelocityState.STOPPED then
        (st, [(now, OutEvent.stateChange st.currentState (mkRat 4 5))])
      else (st, [])
  | TimerTask.countdownFire midId =>
      let res :=
        if st.currentState = VelocityState.STOPPED then
          let text := env now
          if passesPreFilters st.config text now st.lastAssessedText st.lastAssessmentTime then
            let fired := executeAssessment st text now false
            (fired.1, (now, OutEvent.stateChange st.currentState 1) :: fired.2)
          else (st, [])
        else (st, [])
      ({ res.1 with pending := res.1.pending.filter (fun p => p.id != midId) }, res.2)

/-- External stimuli of the engine on the shared timeline. -/
inductive ExtEvent where
  | key (c : Char)
  | composing (b : Bool)
  | sample
  | force
deriving DecidableEq, Repr

/-- Dispatch one external stimulus at its time. -/
def handleExt (st : TrackerState) (env : Nat → String) (now : Nat) :
    ExtEvent → TrackerState × List (Nat × OutEvent)
  | ExtEvent.key c => (trackKeystroke st c now, [])
  | ExtEvent.composing b => ({ st with isComposing := b }, [])
  | ExtEvent.sample => sampleVelocity st now
  | ExtEvent.force => forceTrigger st env now

/-- Choose between a candidate due timer and the best found so far:
earlier expiry wins, ties broken by creation id, as in the JS timer queue. -/
def pickBetter (t : Nat) (acc : Option PendingTimer) (p : PendingTimer) : Option PendingTimer :=
  if p.expiry ≤ t then
    match acc with
    | none => some p
    | some q =>
        if p.expiry < q.expiry ∨ (p.expiry = q.expiry ∧ p.id < q.id) then some p else some q
  else acc

/-- Earliest due timer at or before time t, if any. -/
def pickDue (pending : List PendingTimer) (t : Nat) : Option PendingTimer :=
  pending.foldl (pickBetter t) none

/-- Fire all timers due at or before time t, each at its own expiry time,
in queue order. The fuel bounds the loop; callers pass enough of it. -/
def fireDue (env : Nat → String) (t : Nat) :
    Nat → TrackerState → List (Nat × OutEvent) → TrackerState × List (Nat × OutEvent)
  | 0, st, acc => (st, acc)
  | fuel + 1, st, acc =>
      match pickDue st.pending t with
      | none => (st, acc)
      | some p =>
          let st1 := { st with pending := st.pending.filter (fun q => q.id != p.id) }
          let fired := fireTimer st1 env p.expiry p.task
          fireDue env t fuel fired.1 (acc ++ fired.2)

/-- Process a timeline of external events: before each event, fire every
timer that has come due, then dispatch the event. -/
def run (env : Nat → String) :
    List (Nat × ExtEvent) → TrackerState → List (Nat × OutEvent) →
      TrackerState × List (Nat × OutEvent)
  | [], st, acc => (st, acc)
  | (t, e) :: rest, st, acc =>
      let flushed := fireDue env t (3 * st.pending.length) st acc
      let handled := handleExt flushed.1 env t e
      run env rest handled.1 (flushed.2 ++ handled.2)

/-- Fresh tracker as constructed by the class field initializers. -/
def initialState (config : VelocityConfig) : TrackerState :=
  { config := config
    charTimestamps := []
    currentState := VelocityState.STOPPED
    previousState := VelocityState.STOPPED
    countdownTimer := none
    isComposing := false
    lastAssessedText := ""
    lastAssessmentTime := 0
    nextTimerId := 1
    pending := [] }

/-- Full execution: start from a fresh default-configured tracker, process
the events, then let time advance to endTime so remaining due timers fire. -/
def runTracker (env : Nat → String) (events : List (Nat × ExtEvent)) (endTime : Nat) :
    TrackerState × List (Nat × OutEvent) :=
  let r := run env events (initialState DEFAULT_CONFIG) []
  fireDue env endTime (3 * r.1.pending.length) r.1 r.2

/-- Well-formed timeline: event times are in order starting from 0, and
endTime is past every event. -/
def timeline (events : List (Nat × ExtEvent)) (endTime : Nat) : Prop :=
  List.Chain (fun a b => a ≤ b) 0 (events.map Prod.fst) ∧ ∀ p ∈ events, p.1 ≤ endTime
/-! Derived notions used to state properties of executions. -/

/-- Output lists containing no trigger callback invocation. -/
def noTriggers (l : List (Nat × OutEvent)) : Prop :=
  ∀ x ∈ l, ∀ m s, x.2 ≠ OutEvent.trigger m s

/-- Two output entries are auto-spaced when, if both are automatic
(countdown) triggers, they lie at least the 30000 ms cooldown apart. -/
def autoSpaced (a b : Nat × OutEvent) : Prop :=
  ∀ s1 s2, a.2 = OutEvent.trigger false s1 → b.2 = OutEvent.trigger false s2 →
    a.1 + 30000 ≤ b.1

/-- Folding step selecting the text and time of the most recent trigger. -/
def lastTriggerStep (acc : String × Nat) (e : Nat × OutEvent) : String × Nat :=
  match e.2 with
  | OutEvent.trigger _ s => (s, e.1)
  | OutEvent.stateChange _ _ => acc

/-- Text and time of the most recent trigger in an output trace, with the
initial field values ("", 0) when no trigger has been emitted. -/
def lastTrigger (out : List (Nat × OutEvent)) : String × Nat :=
  out.foldl lastTriggerStep ("", 0)

/-- Invariant family for execution proofs: a predicate on the tracker
state, the outputs so far and an upper time bound, closed under the four
kinds of interpreter steps. -/
structure InvConds (Inv : TrackerState → List (Nat × OutEvent) → Nat → Prop) : Prop where
  mono : ∀ st out T U, T ≤ U → Inv st out T → Inv st out U
  reschedule : ∀ st out T pnd, Inv st out T → Inv { st with pending := pnd } out T
  extStep : ∀ env st out t e, Inv st out t →
    Inv (handleExt st env t e).1 (out ++ (handleExt st env t e).2) t
  timerStep : ∀ env st out T eT task, eT ≤ T → Inv st out T →
    Inv (fireTimer st env eT task).1 (out ++ (fireTimer st env eT task).2) T

/-- Cooldown invariant: the configuration is the default one, the last
assessment lies in the past, every emitted trigger is no later than the
last assessment, and automatic triggers are pairwise 30000 ms apart. -/
def cooldownInv (st : TrackerState) (out : List (Nat × OutEvent)) (T : Nat) : Prop :=
  st.config = DEFAULT_CONFIG ∧ st.lastAssessmentTime ≤ T ∧
  (∀ x ∈ out, ∀ m s, x.2 = OutEvent.trigger m s → x.1 ≤ st.lastAssessmentTime) ∧
  List.Pairwise autoSpaced out

/-- Buffer invariant: default configuration and at most ten history entries. -/
def bufferInv (st : TrackerState) (_ : List (Nat × OutEvent)) (_ : Nat) : Prop :=
  st.config = DEFAULT_CONFIG ∧ st.charTimestamps.length ≤ 10

/-- Atomicity invariant: the last-sent fields always equal the text and
time of the most recent emitted trigger (or their initial values). -/
def atomicInv (st : TrackerState) (out : List (Nat × OutEvent)) (_ : Nat) : Prop :=
  st.lastAssessedText = (lastTrigger out).1 ∧ st.lastAssessmentTime = (lastTrigger out).2

/-! Model of the content script's inactivity timer (resetInactivityTimer in
src/content/index.tsx): timeouts are (id, expiry) pairs. -/

/-- Handle and pending timeouts of the content script's inactivity guard. -/
structure InactivityTimers where
  inactivityTimer : Option Nat
  pending : List (Nat × Nat)
  nextId : Nat
deriving DecidableEq, Repr

/-- Model of resetInactivityTimer: clear the handled timeout if one is
stored, then schedule a fresh 15-minute timeout and store its handle. -/
def resetInactivityTimer (s : InactivityTimers) (now : Nat) : InactivityTimers :=
  let s1 :=
    match s.inactivityTimer with
    | some tid => { s with pending := s.pending.filter (fun p => p.1 != tid) }
    | none => s
  { s1 with
      inactivityTimer := some s1.nextId
      pending := s1.pending ++ [(s1.nextId, now + 15 * 60 * 1000)]
      nextId := s1.nextId + 1 }

/-- Every pending inactivity timeout is the one the handle stores. -/
def inactivityHandled (s : InactivityTimers) : Prop :=
  ∀ p ∈ s.pending, s.inactivityTimer = some p.1

/-! Concrete scenarios. Timestamps start at 100000 so that the initial
lastAssessmentTime of 0 lies outside the 30000 ms cooldown window, as it
does for real wall-clock values of Date.now. -/

/-- Monitored field holding a long unpunctuated prompt. -/
def envLong : Nat → String := fun _ => "this is a long enough prompt"

/-- Monitored field holding a prompt that ends in a question mark. -/
def envQuestion : Nat → String := fun _ => "Is this a good prompt?"

/-- Monitored field holding a long prompt with no terminal mark. -/
def envPlain : Nat → String := fun _ => "this is a good prompt"

/-- Monitored field holding a 13-character prompt for manual triggers. -/
def envManual : Nat → String := fun _ => "manual prompt"

/-- Type two characters, confirm FLOW, then a sample one second later
confirms STOPPED (scheduling the grace-period check for 102600). -/
def pauseEvents : List (Nat × ExtEvent) :=
  [(100000, ExtEvent.key 'a'), (100010, ExtEvent.key 'b'), (100020, ExtEvent.sample),
   (101100, ExtEvent.sample)]

/-- Pause, resume typing before the grace check fires, and leave FLOW
confirmed at 101300: the grace check from the first pause stays pending. -/
def graceEvents : List (Nat × ExtEvent) :=
  pauseEvents ++ [(101200, ExtEvent.key 'c'), (101210, ExtEvent.key 'd'),
    (101300, ExtEvent.sample)]

/-- Pause again at 102400: now two grace checks are pending (102600 and
103900), each of which will arm its own countdown. -/
def overlapEvents : List (Nat × ExtEvent) :=
  graceEvents ++ [(102400, ExtEvent.sample)]

/-- After both countdowns are armed, resume typing, confirmed at 104100:
only the countdown held in the handle is cancelled. -/
def resumeEvents : List (Nat × ExtEvent) :=
  overlapEvents ++ [(104000, ExtEvent.key 'e'), (104010, ExtEvent.key 'f'),
    (104100, ExtEvent.sample)]

/-- Stop once more at 105200 so the tracker is again in STOPPED when the
orphaned countdown from 102600 expires at 110600. -/
def resumeFullEvents : List (Nat × ExtEvent) :=
  resumeEvents ++ [(105200, ExtEvent.sample)]

/-- Two manual triggers 1000 ms apart, far inside the cooldown window. -/
def twoForceEvents : List (Nat × ExtEvent) :=
  [(100000, ExtEvent.force), (101000, ExtEvent.force)]

/-- One keystroke, then a classifier sample five seconds later. -/
def staleEvents : List (Nat × ExtEvent) :=
  [(100000, ExtEvent.key 'a'), (105000, ExtEvent.sample)]

/-! Theorems. First the edit-distance layer. -/

/-- Base row of the dp table: distance to an empty second prefix is i. -/
theorem levAux_zero_right (s1 s2 : List Char) (i : Nat) : levAux s1 s2 i 0 = i := by
  simp [levAux]

/-- Base column of the dp table: distance from an empty first prefix is j. -/
theorem levAux_zero_left (s1 s2 : List Char) (j : Nat) : levAux s1 s2 0 j = j := by
  cases j <;> simp [levAux]

/-- Diagonal of the dp table for identical strings is zero. -/
theorem levAux_self (s : List Char) : ∀ i, levAux s s i i = 0 := by
  intro i
  induction i with
  | zero => simp [levAux]
  | succ i ih => simp [levAux, ih]

/-- Every dp entry is bounded by the larger prefix length: substituting the
shorter prefix into the longer costs at most max i j unit edits. -/
theorem levAux_le_max (s1 s2 : List Char) : ∀ n i j, i + j ≤ n → levAux s1 s2 i j ≤ max i j := by
  intro n
  induction n with
  | zero =>
      intro i j h
      obtain ⟨rfl, rfl⟩ : i = 0 ∧ j = 0 := by omega
      simp [levAux]
  | succ n ih =>
      intro i j h
      cases i with
      | zero => simp [levAux_zero_left]
      | succ i =>
          cases j with
          | zero => simp [levAux_zero_right]
          | succ j =>
              have h1 := ih i j (by omega)
              simp only [levAux]
              split
              · exact h1.trans (by omega)
              · have h2 : Nat.min (Nat.min (levAux s1 s2 i (j + 1)) (levAux s1 s2 (i + 1) j))
                    (levAux s1 s2 i j) ≤ levAux s1 s2 i j := Nat.min_le_right _ _
                calc Nat.min (Nat.min (levAux s1 s2 i (j + 1)) (levAux s1 s2 (i + 1) j))
                      (levAux s1 s2 i j) + 1 ≤ levAux s1 s2 i j + 1 := by omega
                  _ ≤ max i j + 1 := by omega
                  _ = max (i + 1) (j + 1) := (Nat.succ_max_succ i j).symm

/-- Entries of the dp table in the window of the original strings do not
change when extra characters are appended past the window. -/
theorem levAux_append (s1 s2 t1 t2 : List Char) :
    ∀ n i j, i + j ≤ n → i ≤ s1.length → j ≤ s2.length →
      levAux (s1 ++ t1) (s2 ++ t2) i j = levAux s1 s2 i j := by
  intro n
  induction n with
  | zero =>
      intro i j h _ _
      obtain ⟨rfl, rfl⟩ : i = 0 ∧ j = 0 := by omega
      simp [levAux]
  | succ n ih =>
      intro i j h hi hj
      cases i with
      | zero => simp [levAux_zero_left]
      | succ i =>
          cases j with
          | zero => simp [levAux_zero_right]
          | succ j =>
              have e1 : (s1 ++ t1)[i]? = s1[i]? := List.getElem?_append_left (by omega)
              have e2 : (s2 ++ t2)[j]? = s2[j]? := List.getElem?_append_left (by omega)
              simp only [levAux, e1, e2, ih i j (by omega) (by omega) (by omega),
                ih i (j + 1) (by omega) (by omega) hj, ih (i + 1) j (by omega) hi (by omega)]

/-- Corner recurrence of the dp table on the last characters of both strings. -/
theorem levAux_corner (s1 s2 : List Char) (c d : Char) :
    levAux (s1 ++ [c]) (s2 ++ [d]) (s1.length + 1) (s2.length + 1) =
      if c = d then levAux s1 s2 s1.length s2.length
      else Nat.min (Nat.min (levAux s1 (s2 ++ [d]) s1.length (s2.length + 1))
              (levAux (s1 ++ [c]) s2 (s1.length + 1) s2.length))
            (levAux s1 s2 s1.length s2.length) + 1 := by
  have e1 : (s1 ++ [c])[s1.length]? = some c := List.getElem?_concat_length s1 c
  have e2 : (s2 ++ [d])[s2.length]? = some d := List.getElem?_concat_length s2 d
  have w1 : levAux (s1 ++ [c]) (s2 ++ [d]) s1.length s2.length =
      levAux s1 s2 s1.length s2.length := by
    exact levAux_append s1 s2 [c] [d] (s1.length + s2.length) _ _ le_rfl le_rfl le_rfl
  have w2 : levAux (s1 ++ [c]) (s2 ++ [d]) s1.length (s2.length + 1) =
      levAux s1 (s2 ++ [d]) s1.length (s2.length + 1) := by
    have := levAux_append s1 (s2 ++ [d]) [c] [] (s1.length + (s2.length + 1)) s1.length
      (s2.length + 1) le_rfl le_rfl (by simp)
    simpa using this
  have w3 : levAux (s1 ++ [c]) (s2 ++ [d]) (s1.length + 1) s2.length =
      levAux (s1 ++ [c]) s2 (s1.length + 1) s2.length := by
    have := levAux_append (s1 ++ [c]) s2 [] [d] ((s1.length + 1) + s2.length) (s1.length + 1)
      s2.length le_rfl (by simp) le_rfl
    simpa using this
  simp only [levAux, e1, e2, w1, w2, w3, Option.some_inj]

/-- The distance of any string to the empty string is its length. -/
theorem levenshteinDistance_empty_right (a : String) : levenshteinDistance a "" = a.length := by
  simp [levenshteinDistance, levAux_zero_right]

/-- The distance of the empty string to any string is the other's length. -/
theorem levenshteinDistance_empty_left (b : String) : levenshteinDistance "" b = b.length := by
  simp [levenshteinDistance, levAux_zero_left]

/-- The distance of a string to itself is zero. -/
theorem levenshteinDistance_self (a : String) : levenshteinDistance a a = 0 := by
  simp [levenshteinDistance, levAux_self]

/-- The classic unit-cost recurrence on last characters: together with the
two base cases this characterizes the classic single-character edit distance
with insertions, deletions and substitutions at unit cost each. -/
theorem levenshteinDistance_push (a b : String) (c d : Char) :
    levenshteinDistance (a.push c) (b.push d) =
      if c = d then levenshteinDistance a b
      else Nat.min (Nat.min (levenshteinDistance a (b.push d))
              (levenshteinDistance (a.push c) b))
            (levenshteinDistance a b) + 1 := by
  have hda : (a.push c).data = a.data ++ [c] := String.data_push a c
  have hdb : (b.push d).data = b.data ++ [d] := String.data_push b d
  have hla : (a.push c).length = a.length + 1 := by simp [String.length_push]
  have hlb : (b.push d).length = b.length + 1 := by simp [String.length_push]
  have hlen : ∀ s : String, s.length = s.data.length := fun _ => rfl
  unfold levenshteinDistance
  rw [hda, hdb, hla, hlb]
  rw [hlen a, hlen b]
  exact levAux_corner a.data b.data c d

/-- The distance never exceeds the length of the longer string. -/
theorem levenshteinDistance_le_max (a b : String) :
    levenshteinDistance a b ≤ max a.length b.length :=
  levAux_le_max a.data b.data (a.length + b.length) a.length b.length le_rfl

/-! Gate characterization. -/

/-- The denylist scan with JS strict equality is list membership. -/
theorem mem_THROWAWAY_iff (s : String) :
    (THROWAWAY_PHRASES.any (fun phrase => s == phrase) = true) ↔ s ∈ THROWAWAY_PHRASES := by
  constructor
  · intro h
    obtain ⟨x, hx, he⟩ := List.any_eq_true.mp h
    exact (beq_iff_eq.mp he) ▸ hx
  · intro h
    exact List.any_eq_true.mpr ⟨s, h, beq_iff_eq.mpr rfl⟩

/-- The gate accepts exactly when all four conditions hold. -/
theorem passesPreFilters_iff (config : VelocityConfig) (text : String) (now : Nat)
    (lastText : String) (lastTime : Nat) :
    passesPreFilters config text now lastText lastTime = true ↔
      (config.minPromptLength ≤ text.length ∧
       config.cooldownPeriod ≤ now - lastTime ∧
       config.minChangePercent ≤ calculateChangePercent text lastText ∧
       jsTrim (jsToLower text) ∉ THROWAWAY_PHRASES) := by
  unfold passesPreFilters
  split_ifs with h1 h2 h3 h4
  · exact iff_of_false (by simp) (by rintro ⟨c1, -, -, -⟩; omega)
  · exact iff_of_false (by simp) (by rintro ⟨-, c2, -, -⟩; omega)
  · exact iff_of_false (by simp) (by rintro ⟨-, -, c3, -⟩; exact absurd h3 (not_lt.mpr c3))
  · exact iff_of_false (by simp) (by rintro ⟨-, -, -, c4⟩; exact c4 ((mem_THROWAWAY_iff _).mp h4))
  · exact iff_of_true rfl ⟨Nat.le_of_not_lt h1, Nat.le_of_not_lt h2, not_lt.mp h3,
      fun hm => h4 ((mem_THROWAWAY_iff _).mpr hm)⟩

/-- The change fraction against an empty last-sent text is one. -/
theorem calculateChangePercent_empty (a : String) : calculateChangePercent a "" = 1 := by
  have h : "".isEmpty = true := rfl
  simp [calculateChangePercent, h]

/-- The change fraction of a nonempty string against itself is zero. -/
theorem calculateChangePercent_self (a : String) (h : a ≠ "") :
    calculateChangePercent a a = 0 := by
  have hne : a.isEmpty = false := by
    cases he : a.isEmpty
    · rfl
    · exact absurd ((String.isEmpty_iff a).mp he) h
  have hdata : a.data ≠ [] := fun hd => h (String.ext (by simp [hd]))
  have hlen : a.length = a.data.length := rfl
  have hpos : 0 < a.length := by
    cases hd : a.data with
    | nil => exact absurd hd hdata
    | cons x xs => simp [hlen, hd]
  simp [calculateChangePercent, hne, levenshteinDistance_self, hpos]

/-! Step classification: which fields each callback can change, and the
shape of the outputs it can emit. -/

@[simp] theorem cancelCountdown_config (st : TrackerState) :
    (cancelCountdown st).config = st.config := by
  unfold cancelCountdown; split <;> rfl

@[simp] theorem cancelCountdown_charTimestamps (st : TrackerState) :
    (cancelCountdown st).charTimestamps = st.charTimestamps := by
  unfold cancelCountdown; split <;> rfl

@[simp] theorem cancelCountdown_lastAssessedText (st : TrackerState) :
    (cancelCountdown st).lastAssessedText = st.lastAssessedText := by
  unfold cancelCountdown; split <;> rfl

@[simp] theorem cancelCountdown_lastAssessmentTime (st : TrackerState) :
    (cancelCountdown st).lastAssessmentTime = st.lastAssessmentTime := by
  unfold cancelCountdown; split <;> rfl

@[simp] theorem cancelCountdown_currentState (st : TrackerState) :
    (cancelCountdown st).currentState = st.currentState := by
  unfold cancelCountdown; split <;> rfl

/-- Empty output lists contain no triggers. -/
theorem noTriggers_nil : noTriggers [] := by simp [noTriggers]

/-- A single feedback tick contains no triggers. -/
theorem noTriggers_single_sc (t : Nat) (v : VelocityState) (o : Rat) :
    noTriggers [(t, OutEvent.stateChange v o)] := by simp [noTriggers]

/-- The state-change handler never touches the configuration, the history
buffer or the last-sent fields, and only emits one feedback tick. -/
theorem onStateChange_cases (st : TrackerState) (ns : VelocityState) (now : Nat) :
    (onStateChange st ns now).1.config = st.config ∧
    (onStateChange st ns now).1.charTimestamps = st.charTimestamps ∧
    (onStateChange st ns now).1.lastAssessedText = st.lastAssessedText ∧
    (onStateChange st ns now).1.lastAssessmentTime = st.lastAssessmentTime ∧
    (onStateChange st ns now).2 = [(now, OutEvent.stateChange ns (getOpacityForState ns))] := by
  unfold onStateChange
  split_ifs <;> simp_all
  all_goals (split_ifs <;> simp_all)

/-- Classification of external steps: the configuration is preserved, the
buffer stays within its cap, and either the last-sent fields are untouched
with no trigger emitted, or the step is a manual trigger that sets both
fields to the emitted trigger's text and time. -/
theorem handleExt_cases (st : TrackerState) (env : Nat → String) (now : Nat) (e : ExtEvent) :
    (handleExt st env now e).1.config = st.config ∧
    (handleExt st env now e).1.charTimestamps.length ≤
      max st.charTimestamps.length st.config.charBufferSize ∧
    (((handleExt st env now e).1.lastAssessedText = st.lastAssessedText ∧
      (handleExt st env now e).1.lastAssessmentTime = st.lastAssessmentTime ∧
      noTriggers (handleExt st env now e).2) ∨
      (10 ≤ (env now).length ∧
        (handleExt st env now e).2 = [(now, OutEvent.trigger true (env now))] ∧
        (handleExt st env now e).1.lastAssessedText = env now ∧
        (handleExt st env now e).1.lastAssessmentTime = now)) := by
  cases e with
  | key c =>
      simp only [handleExt, trackKeystroke]
      split_ifs with h1 h2
      · exact ⟨rfl, le_max_left _ _, Or.inl ⟨rfl, rfl, noTriggers_nil⟩⟩
      · refine ⟨rfl, ?_, Or.inl ⟨rfl, rfl, noTriggers_nil⟩⟩
        have h : ((st.charTimestamps ++
            [({ char := c, timestamp := now } : CharTimestamp)]).tail).length =
            st.charTimestamps.length := by simp
        exact le_trans (Nat.le_of_eq h) (le_max_left _ _)
      · refine ⟨rfl, ?_, Or.inl ⟨rfl, rfl, noTriggers_nil⟩⟩
        have h : (st.charTimestamps ++
            [({ char := c, timestamp := now } : CharTimestamp)]).length =
            st.charTimestamps.length + 1 := by simp
        have h2' : st.charTimestamps.length + 1 ≤ st.config.charBufferSize := by
          rw [h] at h2; omega
        exact le_trans (Nat.le_of_eq h) (le_trans h2' (le_max_right _ _))
  | composing b =>
      exact ⟨rfl, le_max_left _ _, Or.inl ⟨rfl, rfl, noTriggers_nil⟩⟩
  | sample =>
      simp only [handleExt, sampleVelocity]
      split <;> (try split) <;> (try split) <;> (try split)
      all_goals first
        | exact ⟨rfl, le_max_left _ _, Or.inl ⟨rfl, rfl, noTriggers_nil⟩⟩
        | (obtain ⟨hc, hb, hA, hT, hout⟩ := onStateChange_cases st _ now
           exact ⟨hc, le_trans (Nat.le_of_eq (by rw [hb])) (le_max_left _ _),
             Or.inl ⟨hA, hT, by rw [hout]; exact noTriggers_single_sc _ _ _⟩⟩)
  | force =>
      simp only [handleExt, forceTrigger, executeAssessment]
      split_ifs with h
      · exact ⟨by simp, le_trans (Nat.le_of_eq (by simp)) (le_max_left _ _),
          Or.inr ⟨h, rfl, rfl, rfl⟩⟩
      · exact ⟨rfl, le_max_left _ _, Or.inl ⟨rfl, rfl, noTriggers_nil⟩⟩

/-- Classification of timer steps: the configuration and buffer are
preserved, and either the last-sent fields are untouched with no trigger
emitted, or the countdown expiry passed the gate in STOPPED and set both
fields to the emitted trigger's text and time. -/
theorem fireTimer_cases (st : TrackerState) (env : Nat → String) (now : Nat) (task : TimerTask) :
    (fireTimer st env now task).1.config = st.config ∧
    (fireTimer st env now task).1.charTimestamps = st.charTimestamps ∧
    (((fireTimer st env now task).1.lastAssessedText = st.lastAssessedText ∧
      (fireTimer st env now task).1.lastAssessmentTime = st.lastAssessmentTime ∧
      noTriggers (fireTimer st env now task).2) ∨
      (st.currentState = VelocityState.STOPPED ∧
        passesPreFilters st.config (env now) now st.lastAssessedText st.lastAssessmentTime = true ∧
        (fireTimer st env now task).2 =
          [(now, OutEvent.stateChange VelocityState.STOPPED 1),
           (now, OutEvent.trigger false (env now))] ∧
        (fireTimer st env now task).1.lastAssessedText = env now ∧
        (fireTimer st env now task).1.lastAssessmentTime = now)) := by
  cases task with
  | graceCheck =>
      simp only [fireTimer, startCountdown]
      split_ifs <;> exact ⟨rfl, rfl, Or.inl ⟨rfl, rfl, noTriggers_nil⟩⟩
  | midpoint =>
      simp only [fireTimer]
      split_ifs with h
      · exact ⟨rfl, rfl, Or.inl ⟨rfl, rfl, noTriggers_single_sc _ _ _⟩⟩
      · exact ⟨rfl, rfl, Or.inl ⟨rfl, rfl, noTriggers_nil⟩⟩
  | countdownFire m =>
      simp only [fireTimer, executeAssessment]
      split_ifs with h1 h2
      · refine ⟨rfl, rfl, Or.inr ⟨h1, h2, ?_, rfl, rfl⟩⟩
        rw [h1]
      · exact ⟨rfl, rfl, Or.inl ⟨rfl, rfl, noTriggers_nil⟩⟩
      · exact ⟨rfl, rfl, Or.inl ⟨rfl, rfl, noTriggers_nil⟩⟩

/-! Trace bookkeeping lemmas. -/

/-- A trigger-free list is vacuously pairwise auto-spaced. -/
theorem pairwise_autoSpaced_of_noTriggers (l : List (Nat × OutEvent)) (h : noTriggers l) :
    List.Pairwise autoSpaced l := by
  induction l with
  | nil => exact List.Pairwise.nil
  | cons x xs ih =>
      refine List.Pairwise.cons ?_ (ih fun y hy => h y (List.mem_cons_of_mem x hy))
      intro b _ s1 s2 hx _
      exact absurd hx (h x (List.mem_cons_self x xs) false s1)

/-- Appending trigger-free outputs preserves pairwise auto-spacing. -/
theorem pairwise_autoSpaced_append (out o : List (Nat × OutEvent))
    (hp : List.Pairwise autoSpaced out) (h : noTriggers o) :
    List.Pairwise autoSpaced (out ++ o) := by
  rw [List.pairwise_append]
  exact ⟨hp, pairwise_autoSpaced_of_noTriggers o h,
    fun a _ b hb s1 s2 _ hbt => absurd hbt (h b hb false s2)⟩

/-- Folding the last-trigger selector over trigger-free outputs is the
identity on the accumulator. -/
theorem foldl_lastTriggerStep_of_noTriggers (o : List (Nat × OutEvent)) :
    ∀ acc, noTriggers o → o.foldl lastTriggerStep acc = acc := by
  induction o with
  | nil => intro acc _; rfl
  | cons x xs ih =>
      intro acc h
      have hx : ∀ m s, x.2 ≠ OutEvent.trigger m s := h x (List.mem_cons_self x xs)
      have hstep : lastTriggerStep acc x = acc := by
        unfold lastTriggerStep
        cases he : x.2 with
        | trigger m s => exact absurd he (hx m s)
        | stateChange v op => rfl
      rw [List.foldl_cons, hstep]
      exact ih acc fun y hy => h y (List.mem_cons_of_mem x hy)

/-- The last trigger of an extended trace folds the new outputs on top. -/
theorem lastTrigger_append (out o : List (Nat × OutEvent)) :
    lastTrigger (out ++ o) = o.foldl lastTriggerStep (lastTrigger out) := by
  unfold lastTrigger
  exact List.foldl_append lastTriggerStep ("", 0) out o

/-! Interpreter framework: invariants closed under all steps hold along
every execution. -/

/-- One selection step keeps the candidate due. -/
theorem pickBetter_due (t : Nat) (acc : Option PendingTimer) (x : PendingTimer)
    (hacc : ∀ q, acc = some q → q.expiry ≤ t) :
    ∀ q, pickBetter t acc x = some q → q.expiry ≤ t := by
  intro q hq
  cases acc with
  | none =>
      unfold pickBetter at hq
      split_ifs at hq with hx
      have hq' : some x = some q := hq
      exact (Option.some.inj hq') ▸ hx
  | some q2 =>
      unfold pickBetter at hq
      split_ifs at hq with hx
      · have hq' : (if x.expiry < q2.expiry ∨ (x.expiry = q2.expiry ∧ x.id < q2.id) then
            some x else some q2) = some q := hq
        split_ifs at hq' with hcmp
        · exact (Option.some.inj hq') ▸ hx
        · exact (Option.some.inj hq') ▸ hacc q2 rfl
      · exact (Option.some.inj hq) ▸ hacc q2 rfl

/-- A timer selected as due really is due. -/
theorem pickDue_expiry_le (t : Nat) :
    ∀ (l : List PendingTimer) (acc : Option PendingTimer),
      (∀ q, acc = some q → q.expiry ≤ t) →
      ∀ p, l.foldl (pickBetter t) acc = some p → p.expiry ≤ t := by
  intro l
  induction l with
  | nil => intro acc hacc p hp; exact hacc p hp
  | cons x xs ih =>
      intro acc hacc p hp
      exact ih (pickBetter t acc x) (pickBetter_due t acc x hacc) p hp

/-- The earliest due timer is due. -/
theorem pickDue_le (pending : List PendingTimer) (t : Nat) (p : PendingTimer)
    (h : pickDue pending t = some p) : p.expiry ≤ t :=
  pickDue_expiry_le t pending none (fun q hq => by cases hq) p h

/-- Invariants closed under the step conditions survive the due-timer loop. -/
theorem fireDue_inv {Inv : TrackerState → List (Nat × OutEvent) → Nat → Prop}
    (h : InvConds Inv) (env : Nat → String) :
    ∀ (fuel : Nat) (st : TrackerState) (acc : List (Nat × OutEvent)) (T : Nat),
      Inv st acc T → Inv (fireDue env T fuel st acc).1 (fireDue env T fuel st acc).2 T := by
  intro fuel
  induction fuel with
  | zero => intro st acc T hI; exact hI
  | succ n ih =>
      intro st acc T hI
      rw [fireDue]
      cases hp : pickDue st.pending T with
      | none => exact hI
      | some p =>
          have h1 := h.reschedule st acc T (st.pending.filter (fun q => q.id != p.id)) hI
          have h2 := h.timerStep env _ acc T p.expiry p.task (pickDue_le _ _ _ hp) h1
          exact ih _ _ _ h2

/-- Invariants closed under the step conditions survive a whole ordered
event list. -/
theorem run_inv {Inv : TrackerState → List (Nat × OutEvent) → Nat → Prop}
    (h : InvConds Inv) (env : Nat → String) :
    ∀ (events : List (Nat × ExtEvent)) (st : TrackerState) (acc : List (Nat × OutEvent))
      (T U : Nat), T ≤ U →
      List.Chain (fun a b => a ≤ b) T (events.map Prod.fst) →
      (∀ p ∈ events, p.1 ≤ U) →
      Inv st acc T → Inv (run env events st acc).1 (run env events st acc).2 U := by
  intro events
  induction events with
  | nil =>
      intro st acc T U hTU _ _ hI
      exact h.mono st acc T U hTU hI
  | cons te rest ih =>
      obtain ⟨t, e⟩ := te
      intro st acc T U hTU hchain hmem hI
      rw [List.map_cons, List.chain_cons] at hchain
      obtain ⟨hTt, hchain'⟩ := hchain
      rw [run]
      have h1 := fireDue_inv h env (3 * st.pending.length) st acc t (h.mono st acc T t hTt hI)
      have h2 := h.extStep env _ _ t e h1
      exact ih _ _ t U (hmem (t, e) (List.mem_cons_self _ _)) hchain'
        (fun p hp => hmem p (List.mem_cons_of_mem _ hp)) h2

/-- Invariants closed under the step conditions hold of a full execution
over a well-formed timeline. -/
theorem runTracker_inv {Inv : TrackerState → List (Nat × OutEvent) → Nat → Prop}
    (h : InvConds Inv) (env : Nat → String) (events : List (Nat × ExtEvent)) (endTime : Nat)
    (ht : timeline events endTime) (h0 : Inv (initialState DEFAULT_CONFIG) [] 0) :
    Inv (runTracker env events endTime).1 (runTracker env events endTime).2 endTime := by
  obtain ⟨hchain, hmem⟩ := ht
  have h1 := run_inv h env events (initialState DEFAULT_CONFIG) [] 0 endTime
    (Nat.zero_le _) hchain hmem h0
  unfold runTracker
  exact fireDue_inv h env _ _ _ endTime h1

/-- The cooldown invariant is closed under all interpreter steps. -/
theorem cooldownInv_conds : InvConds cooldownInv := by
  constructor
  · intro st out T U hTU ⟨hc, hT, htrig, hpw⟩
    exact ⟨hc, le_trans hT hTU, htrig, hpw⟩
  · intro st out T pnd ⟨hc, hT, htrig, hpw⟩
    exact ⟨hc, hT, htrig, hpw⟩
  · intro env st out t e ⟨hc, hT, htrig, hpw⟩
    obtain ⟨hcfg, -, hcase⟩ := handleExt_cases st env t e
    rcases hcase with ⟨hA, hTm, hnt⟩ | ⟨hlen, hout, hA, hTm⟩
    · refine ⟨hcfg.trans hc, hTm ▸ hT, ?_, pairwise_autoSpaced_append out _ hpw hnt⟩
      intro x hx m s hxe
      rcases List.mem_append.mp hx with hx1 | hx2
      · rw [hTm]; exact htrig x hx1 m s hxe
      · exact absurd hxe (hnt x hx2 m s)
    · refine ⟨hcfg.trans hc, le_of_eq hTm, ?_, ?_⟩
      · intro x hx m s hxe
        rcases List.mem_append.mp hx with hx1 | hx2
        · rw [hTm]; exact le_trans (htrig x hx1 m s hxe) hT
        · rw [hout] at hx2
          have hx2' := List.mem_singleton.mp hx2
          subst hx2'
          rw [hTm]
      · rw [hout]
        refine List.pairwise_append.mpr ⟨hpw, List.pairwise_singleton _ _, ?_⟩
        intro a ha b hb s1 s2 ha2 hb2
        have hb' := List.mem_singleton.mp hb
        subst hb'
        simp at hb2
  · intro env st out T eT task heT ⟨hc, hT, htrig, hpw⟩
    obtain ⟨hcfg, -, hcase⟩ := fireTimer_cases st env eT task
    rcases hcase with ⟨hA, hTm, hnt⟩ | ⟨hstop, hpass, hout, hA, hTm⟩
    · refine ⟨hcfg.trans hc, hTm ▸ hT, ?_, pairwise_autoSpaced_append out _ hpw hnt⟩
      intro x hx m s hxe
      rcases List.mem_append.mp hx with hx1 | hx2
      · rw [hTm]; exact htrig x hx1 m s hxe
      · exact absurd hxe (hnt x hx2 m s)
    · have hcool : st.config.cooldownPeriod ≤ eT - st.lastAssessmentTime :=
        ((passesPreFilters_iff _ _ _ _ _).mp hpass).2.1
      have hcool30 : (30000 : Nat) ≤ eT - st.lastAssessmentTime := by
        rw [hc] at hcool
        exact hcool
      have hgap : st.lastAssessmentTime + 30000 ≤ eT := by omega
      refine ⟨hcfg.trans hc, (by rw [hTm]; exact heT), ?_, ?_⟩
      · intro x hx m s hxe
        rcases List.mem_append.mp hx with hx1 | hx2
        · rw [hTm]
          exact le_trans (htrig x hx1 m s hxe) (by omega)
        · rw [hout] at hx2
          rw [hTm]
          rcases List.mem_cons.mp hx2 with hx3 | hx3
          · subst hx3; exact le_rfl
          · have hx4 := List.mem_singleton.mp hx3
            subst hx4; exact le_rfl
      · rw [hout]
        refine List.pairwise_append.mpr ⟨hpw, ?_, ?_⟩
        · refine List.Pairwise.cons ?_ (List.pairwise_singleton _ _)
          intro b hb s1 s2 hsc hb2
          exact absurd hsc (by simp)
        · intro a ha b hb s1 s2 ha2 hb2
          rcases List.mem_cons.mp hb with hb3 | hb3
          · subst hb3; simp at hb2
          · have hb4 := List.mem_singleton.mp hb3
            subst hb4
            have := htrig a ha false s1 ha2
            simpa using by omega

/-- The buffer invariant is closed under all interpreter steps. -/
theorem bufferInv_conds : InvConds bufferInv := by
  constructor
  · intro st out T U _ h
    exact h
  · intro st out T pnd ⟨hc, hb⟩
    exact ⟨hc, hb⟩
  · intro env st out t e ⟨hc, hb⟩
    obtain ⟨hcfg, hbuf, -⟩ := handleExt_cases st env t e
    have hcap : st.config.charBufferSize = 10 := by rw [hc]; rfl
    exact ⟨hcfg.trans hc, le_trans hbuf (max_le hb (le_of_eq hcap))⟩
  · intro env st out T eT task heT ⟨hc, hb⟩
    obtain ⟨hcfg, hbuf, -⟩ := fireTimer_cases st env eT task
    exact ⟨hcfg.trans hc, le_trans (le_of_eq (by rw [hbuf])) hb⟩

/-- The atomicity invariant is closed under all interpreter steps. -/
theorem atomicInv_conds : InvConds atomicInv := by
  constructor
  · intro st out T U _ h
    exact h
  · intro st out T pnd ⟨hA, hT⟩
    exact ⟨hA, hT⟩
  · intro env st out t e ⟨hA, hT⟩
    obtain ⟨-, -, hcase⟩ := handleExt_cases st env t e
    rcases hcase with ⟨hA', hT', hnt⟩ | ⟨hlen, hout, hA', hT'⟩
    · refine ⟨?_, ?_⟩
      · rw [lastTrigger_append, foldl_lastTriggerStep_of_noTriggers _ _ hnt, hA', hA]
      · rw [lastTrigger_append, foldl_lastTriggerStep_of_noTriggers _ _ hnt, hT', hT]
    · rw [hout]
      refine ⟨?_, ?_⟩ <;> rw [lastTrigger_append] <;> simp [lastTriggerStep, hA', hT']
  · intro env st out T eT task heT ⟨hA, hT⟩
    obtain ⟨-, -, hcase⟩ := fireTimer_cases st env eT task
    rcases hcase with ⟨hA', hT', hnt⟩ | ⟨hstop, hpass, hout, hA', hT'⟩
    · refine ⟨?_, ?_⟩
      · rw [lastTrigger_append, foldl_lastTriggerStep_of_noTriggers _ _ hnt, hA', hA]
      · rw [lastTrigger_append, foldl_lastTriggerStep_of_noTriggers _ _ hnt, hT', hT]
    · rw [hout]
      refine ⟨?_, ?_⟩ <;> rw [lastTrigger_append] <;> simp [lastTriggerStep, hA', hT']

/-! Claim theorems. -/

/-- Nonempty strings have positive length. -/
theorem length_pos_of_ne_empty (s : String) (h : s ≠ "") : 0 < s.length := by
  have hdata : s.data ≠ [] := fun hd => h (String.ext (by simp [hd]))
  have hlen : s.length = s.data.length := rfl
  cases hd : s.data with
  | nil => exact absurd hd hdata
  | cons x xs => simp [hlen, hd]

/-- C1: at countdown expiry the Eligibility Gate accepts exactly when all
four conditions hold — candidate length at least 15, at least 30000 ms
since the last assessment, change distance at least 0.2 (with a first-ever
evaluation always passing because the distance to an empty last-sent text
is 1), and the lower-cased trimmed candidate not on the denylist — and the
checks run in exactly this order, the first failing check being the
rejection reason. -/
theorem C1_eligibility_gate (text lastText : String) (now lastTime : Nat) :
    (passesPreFilters DEFAULT_CONFIG text now lastText lastTime = true ↔
      (15 ≤ text.length ∧ 30000 ≤ now - lastTime ∧
        mkRat 1 5 ≤ calculateChangePercent text lastText ∧
        jsTrim (jsToLower text) ∉ THROWAWAY_PHRASES)) ∧
    mkRat 1 5 ≤ calculateChangePercent text "" ∧
    (preFilterResult DEFAULT_CONFIG text now lastText lastTime = none ↔
      passesPreFilters DEFAULT_CONFIG text now lastText lastTime = true) ∧
    (preFilterResult DEFAULT_CONFIG text now lastText lastTime = some RejectReason.tooShort ↔
      text.length < 15) ∧
    (preFilterResult DEFAULT_CONFIG text now lastText lastTime = some RejectReason.cooldownActive ↔
      15 ≤ text.length ∧ now - lastTime < 30000) ∧
    (preFilterResult DEFAULT_CONFIG text now lastText lastTime =
        some RejectReason.insufficientChange ↔
      15 ≤ text.length ∧ 30000 ≤ now - lastTime ∧
        calculateChangePercent text lastText < mkRat 1 5) ∧
    (preFilterResult DEFAULT_CONFIG text now lastText lastTime =
        some RejectReason.throwawayPhrase ↔
      15 ≤ text.length ∧ 30000 ≤ now - lastTime ∧
        mkRat 1 5 ≤ calculateChangePercent text lastText ∧
        jsTrim (jsToLower text) ∈ THROWAWAY_PHRASES) := by
  refine ⟨passesPreFilters_iff DEFAULT_CONFIG text now lastText lastTime, ?_, ?_, ?_, ?_, ?_, ?_⟩
  · rw [calculateChangePercent_empty]
    decide
  · unfold preFilterResult passesPreFilters
    split_ifs <;> simp
  · unfold preFilterResult
    split_ifs with h1 h2 h3 h4
    · exact iff_of_true rfl h1
    · exact iff_of_false (by simp) h1
    · exact iff_of_false (by simp) h1
    · exact iff_of_false (by simp) h1
    · exact iff_of_false (by simp) h1
  · unfold preFilterResult
    split_ifs with h1 h2 h3 h4
    · exact iff_of_false (by simp) (fun hcon => absurd hcon.1 (Nat.not_le_of_lt h1))
    · exact iff_of_true rfl ⟨Nat.le_of_not_lt h1, h2⟩
    · exact iff_of_false (by simp) (fun hcon => h2 hcon.2)
    · exact iff_of_false (by simp) (fun hcon => h2 hcon.2)
    · exact iff_of_false (by simp) (fun hcon => h2 hcon.2)
  · unfold preFilterResult
    split_ifs with h1 h2 h3 h4
    · exact iff_of_false (by simp) (fun hcon => absurd hcon.1 (Nat.not_le_of_lt h1))
    · exact iff_of_false (by simp) (fun hcon => absurd hcon.2.1 (Nat.not_le_of_lt h2))
    · exact iff_of_true rfl ⟨Nat.le_of_not_lt h1, Nat.le_of_not_lt h2, h3⟩
    · exact iff_of_false (by simp) (fun hcon => h3 hcon.2.2)
    · exact iff_of_false (by simp) (fun hcon => h3 hcon.2.2)
  · unfold preFilterResult
    split_ifs with h1 h2 h3 h4
    · exact iff_of_false (by simp) (fun hcon => absurd hcon.1 (Nat.not_le_of_lt h1))
    · exact iff_of_false (by simp) (fun hcon => absurd hcon.2.1 (Nat.not_le_of_lt h2))
    · exact iff_of_false (by simp) (fun hcon => absurd hcon.2.2.1 (not_le.mpr h3))
    · exact iff_of_true rfl
        ⟨Nat.le_of_not_lt h1, Nat.le_of_not_lt h2, not_lt.mp h3, (mem_THROWAWAY_iff _).mp h4⟩
    · exact iff_of_false (by simp) (fun hcon => h4 ((mem_THROWAWAY_iff _).mpr hcon.2.2.2))

/-- Witness: a long fresh prompt passes the default gate, and a too-short
prompt is rejected with the length reason. -/
theorem C1_eligibility_gate_witness :
    passesPreFilters DEFAULT_CONFIG "this is a long enough prompt" 100000 "" 0 = true ∧
    preFilterResult DEFAULT_CONFIG "hi" 100000 "" 0 = some RejectReason.tooShort := by
  constructor
  · exact (C1_eligibility_gate "this is a long enough prompt" "" 100000 0).1.mpr
      ⟨by decide, by decide, (C1_eligibility_gate "this is a long enough prompt" "" 100000 0).2.1,
        by decide⟩
  · exact (C1_eligibility_gate "hi" "" 100000 0).2.2.2.1.mpr (by decide)

/-- C4: the change-distance function returns a fraction in the unit
interval, equal to the Levenshtein distance divided by the longer length
for a nonempty second argument and exactly 1 for an empty one; the
distance function satisfies the classic unit-cost base cases and
last-character recurrence (insertion, deletion, substitution at unit cost),
and, as a pure Lean function of its two arguments, is deterministic. -/
theorem C4_change_distance (a b : String) :
    0 ≤ calculateChangePercent a b ∧ calculateChangePercent a b ≤ 1 ∧
    (b = "" → calculateChangePercent a b = 1) ∧
    (b ≠ "" → calculateChangePercent a b =
      (levenshteinDistance a b : Rat) / ((max a.length b.length : Nat) : Rat)) ∧
    levenshteinDistance a "" = a.length ∧
    levenshteinDistance "" b = b.length ∧
    (∀ c d : Char,
      levenshteinDistance (a.push c) (b.push d) =
        if c = d then levenshteinDistance a b
        else Nat.min (Nat.min (levenshteinDistance a (b.push d))
              (levenshteinDistance (a.push c) b))
            (levenshteinDistance a b) + 1) := by
  refine ⟨?_, ?_, ?_, ?_, levenshteinDistance_empty_right a, levenshteinDistance_empty_left b,
    levenshteinDistance_push a b⟩
  · simp only [calculateChangePercent]
    split_ifs with h1 h2
    · exact zero_le_one
    · exact div_nonneg (Nat.cast_nonneg _) (Nat.cast_nonneg _)
    · exact le_refl 0
  · simp only [calculateChangePercent]
    split_ifs with h1 h2
    · exact le_refl 1
    · rw [div_le_one (by exact_mod_cast h2)]
      exact_mod_cast levenshteinDistance_le_max a b
    · exact zero_le_one
  · intro h
    subst h
    exact calculateChangePercent_empty a
  · intro h
    simp only [calculateChangePercent]
    rw [if_neg (fun hh => h ((String.isEmpty_iff b).mp hh))]
    rw [if_pos (lt_of_lt_of_le (length_pos_of_ne_empty b h) (le_max_right _ _))]

/-- Witness: the b-empty branch and the quotient formula at concrete
strings, through the claim theorem. -/
theorem C4_change_distance_witness :
    calculateChangePercent "ab" "" = 1 ∧
    calculateChangePercent "ab" "b" =
      (levenshteinDistance "ab" "b" : Rat) / ((max "ab".length "b".length : Nat) : Rat) :=
  ⟨(C4_change_distance "ab" "").2.2.1 rfl, (C4_change_distance "ab" "b").2.2.2.1 (by decide)⟩

/-- Counterexample to C5: at the empty string the identity
changeDistance(a, a) == 0 fails, because an empty second argument returns
1.0 before the self-comparison is ever made. -/
theorem C5_counterexample :
    calculateChangePercent "" "" = 1 ∧ calculateChangePercent "" "" ≠ 0 := by
  refine ⟨calculateChangePercent_empty "", ?_⟩
  rw [calculateChangePercent_empty ""]
  norm_num

/-- C5 amended: changeDistance(a, a) == 0 for every nonempty a, and
changeDistance(a, "") == 1.0 for every a; at a = "" the first identity is
replaced by the value 1.0 of the empty-second-argument branch. -/
theorem C5_identities_amended :
    (∀ a : String, a ≠ "" → calculateChangePercent a a = 0) ∧
    (∀ a : String, calculateChangePercent a "" = 1) :=
  ⟨fun a h => calculateChangePercent_self a h, fun a => calculateChangePercent_empty a⟩

/-- Witness: both amended identities at a concrete nonempty string. -/
theorem C5_identities_amended_witness :
    calculateChangePercent "ab" "ab" = 0 ∧ calculateChangePercent "ab" "" = 1 :=
  ⟨C5_identities_amended.1 "ab" (by decide), C5_identities_amended.2 "ab"⟩

/-- Counterexample to C2: in the overlap scenario the grace-period check
pending from the first pause is not cancelled when the tracker leaves
STOPPED (confirmed at 101300), two countdowns are then armed and the
second overwrites the handle, so resuming typing (confirmed at 104100)
cancels only the handled countdown while the countdown armed at 102600
(timer id 4, expiry 110600) stays scheduled; after the tracker re-enters
STOPPED, that countdown fires onTrigger at 110600 even though typing
resumed before its expiry. -/
theorem C2_counterexample :
    (runTracker envLong graceEvents 101300).1.currentState = VelocityState.FLOW ∧
    (⟨1, 102600, TimerTask.graceCheck⟩ : PendingTimer) ∈
      (runTracker envLong graceEvents 101300).1.pending ∧
    (runTracker envLong resumeEvents 104100).1.currentState = VelocityState.FLOW ∧
    (⟨4, 110600, TimerTask.countdownFire 3⟩ : PendingTimer) ∈
      (runTracker envLong resumeEvents 104100).1.pending ∧
    (110600, OutEvent.trigger false "this is a long enough prompt") ∈
      (runTracker envLong resumeFullEvents 120000).2 := by
  refine ⟨by decide, by decide, by decide, by decide, by decide⟩

/-- C2 amended: a transition out of STOPPED nulls the countdown handle and
removes exactly the handled countdown from the schedule; the pending
grace-period check is not cancelled, but it is inert when it fires with
the tracker outside STOPPED, and a countdown that expires while the
tracker is outside STOPPED never calls onTrigger. Hence resuming activity
before expiry prevents onTrigger for that countdown unless the tracker
re-enters STOPPED before an uncancelled (orphaned) countdown expires, in
which case the trigger can still fire. -/
theorem C2_leaving_stopped_amended :
    (∀ (st : TrackerState) (ns : VelocityState) (now : Nat), ns ≠ VelocityState.STOPPED →
      (onStateChange st ns now).1.countdownTimer = none ∧
      ∀ p ∈ (onStateChange st ns now).1.pending,
        p ∈ st.pending ∧ st.countdownTimer ≠ some p.id) ∧
    (∀ (st : TrackerState) (env : Nat → String) (e : Nat),
      st.currentState ≠ VelocityState.STOPPED →
      fireTimer st env e TimerTask.graceCheck = (st, [])) ∧
    (∀ (st : TrackerState) (env : Nat → String) (e m : Nat),
      st.currentState ≠ VelocityState.STOPPED →
      fireTimer st env e (TimerTask.countdownFire m) =
        ({ st with pending := st.pending.filter (fun p => p.id != m) }, [])) := by
  refine ⟨?_, ?_, ?_⟩
  · intro st ns now hns
    have hcond : ¬(ns = VelocityState.STOPPED ∧
        ({ st with previousState := st.currentState, currentState := ns
           }).previousState ≠ VelocityState.STOPPED) := fun hcon => hns hcon.1
    simp only [onStateChange]
    rw [if_neg hcond, if_pos hns]
    constructor
    · cases h : st.countdownTimer with
      | none => simp [cancelCountdown, h]
      | some tid => simp [cancelCountdown, h]
    · intro p hp
      cases h : st.countdownTimer with
      | none =>
          simp only [cancelCountdown, h] at hp
          exact ⟨hp, by simp [h]⟩
      | some tid =>
          simp only [cancelCountdown, h, List.mem_filter] at hp
          refine ⟨hp.1, ?_⟩
          intro hcon
          have hne : p.id ≠ tid := by simpa using hp.2
          exact hne (Option.some.inj hcon).symm
  · intro st env e h
    simp only [fireTimer]
    rw [if_neg h]
  · intro st env e m h
    simp only [fireTimer]
    rw [if_neg h]

/-- Witness: at a tracker in FLOW, the grace check is inert and leaving
STOPPED leaves the handle empty. -/
theorem C2_leaving_stopped_amended_witness :
    fireTimer { initialState DEFAULT_CONFIG with currentState := VelocityState.FLOW } envLong 5
        TimerTask.graceCheck =
      ({ initialState DEFAULT_CONFIG with currentState := VelocityState.FLOW }, []) ∧
    (onStateChange (initialState DEFAULT_CONFIG) VelocityState.FLOW 5).1.countdownTimer = none := by
  constructor
  · exact C2_leaving_stopped_amended.2.1 _ envLong 5 (by decide)
  · exact (C2_leaving_stopped_amended.1 (initialState DEFAULT_CONFIG) VelocityState.FLOW 5
      (by decide)).1

/-- C3: the countdown duration is chosen at arming time solely from the
candidate text then present — with the default configuration the armed
countdown timer expires 6000 ms after arming when the trimmed text ends in
one of the six terminal marks and 8000 ms after arming otherwise — and in
the concrete pause scenarios the trigger indeed fires at armTime + 6000
(text ending in a question mark, armed at 102600, fired at 108600) and at
armTime + 8000 (no terminal mark, fired at 110600). -/
theorem C3_countdown_duration :
    (∀ (st : TrackerState) (env : Nat → String) (now : Nat), st.config = DEFAULT_CONFIG →
      startCountdown st env now =
        ({ st with
            nextTimerId := st.nextTimerId + 2
            countdownTimer := some (st.nextTimerId + 1)
            pending := st.pending ++
              [{ id := st.nextTimerId, expiry := now + 3000, task := TimerTask.midpoint },
               { id := st.nextTimerId + 1,
                 expiry := now + (if endsWithPunctuation (env now) then 6000 else 8000),
                 task := TimerTask.countdownFire st.nextTimerId }] }, [])) ∧
    (108600, OutEvent.trigger false "Is this a good prompt?") ∈
      (runTracker envQuestion pauseEvents 120000).2 ∧
    (110600, OutEvent.trigger false "this is a good prompt") ∈
      (runTracker envPlain pauseEvents 120000).2 := by
  refine ⟨?_, by decide, by decide⟩
  intro st env now hc
  simp only [startCountdown, hc]
  rfl

/-- Witness: arming from a fresh tracker with a question-mark text
schedules the countdown exactly 6000 ms out. -/
theorem C3_countdown_duration_witness :
    startCountdown (initialState DEFAULT_CONFIG) envQuestion 0 =
      ({ initialState DEFAULT_CONFIG with
          nextTimerId := 3
          countdownTimer := some 2
          pending := [{ id := 1, expiry := 3000, task := TimerTask.midpoint },
            { id := 2, expiry := 6000, task := TimerTask.countdownFire 1 }] }, []) := by
  rw [C3_countdown_duration.1 (initialState DEFAULT_CONFIG) envQuestion 0 rfl]
  decide

/-- Counterexample to C7: in the overlap scenario two countdown timers
(ids 4 and 6) are simultaneously scheduled, because the second
startCountdown overwrote the handle without clearing the first countdown;
the handle references only the newer one. -/
theorem C7_counterexample :
    (⟨4, 110600, TimerTask.countdownFire 3⟩ : PendingTimer) ∈
      (runTracker envLong overlapEvents 103900).1.pending ∧
    (⟨6, 111900, TimerTask.countdownFire 5⟩ : PendingTimer) ∈
      (runTracker envLong overlapEvents 103900).1.pending ∧
    (runTracker envLong overlapEvents 103900).1.countdownTimer = some 6 := by
  refine ⟨by decide, by decide, by decide⟩

/-- C7 amended: the countdown handle references at most one timer and
cancelCountdown cancels exactly the referenced timer, but starting a new
countdown appends its timers without cancelling a previously scheduled
countdown, so two countdown timers can be active at once when a countdown
is armed by a grace-period check scheduled before an earlier countdown was
armed; the inactivity timer invariant does hold — resetting it always
clears the previously handled timeout first, keeping at most one active. -/
theorem C7_timer_handles_amended :
    (∀ (st : TrackerState) (env : Nat → String) (now : Nat),
      (startCountdown st env now).1.pending = st.pending ++
        [{ id := st.nextTimerId, expiry := now + 3000, task := TimerTask.midpoint },
         { id := st.nextTimerId + 1,
           expiry := now + (if endsWithPunctuation (env now) then
             st.config.naturalCompletionWait else st.config.planningPauseWait),
           task := TimerTask.countdownFire st.nextTimerId }]) ∧
    (∀ st : TrackerState, st.countdownTimer = none → cancelCountdown st = st) ∧
    (∀ (st : TrackerState) (tid : Nat), st.countdownTimer = some tid →
      cancelCountdown st =
        { st with countdownTimer := none
                  pending := st.pending.filter (fun p => p.id != tid) }) ∧
    (∀ (s : InactivityTimers) (now : Nat), inactivityHandled s →
      inactivityHandled (resetInactivityTimer s now) ∧
      (resetInactivityTimer s now).pending.length ≤ 1) := by
  refine ⟨?_, ?_, ?_, ?_⟩
  · intro st env now
    rfl
  · intro st h
    simp [cancelCountdown, h]
  · intro st tid h
    simp [cancelCountdown, h]
  · intro s now h
    cases hh : s.inactivityTimer with
    | none =>
        have hpend : s.pending = [] := by
          cases hp : s.pending with
          | nil => rfl
          | cons x xs =>
              have := h x (by rw [hp]; exact List.mem_cons_self x xs)
              rw [hh] at this
              exact Option.noConfusion this
        constructor
        · intro p hp
          simp only [resetInactivityTimer, hh, hpend] at hp ⊢
          simp at hp
          rw [hp]
        · simp [resetInactivityTimer, hh, hpend]
    | some tid =>
        have hfilter : s.pending.filter (fun p => p.1 != tid) = [] := by
          rw [List.filter_eq_nil_iff]
          intro a ha
          have := h a ha
          rw [hh] at this
          have htid : tid = a.1 := Option.some.inj this
          simp [htid]
        constructor
        · intro p hp
          simp only [resetInactivityTimer, hh, hfilter] at hp ⊢
          simp at hp
          rw [hp]
        · simp [resetInactivityTimer, hh, hfilter]

/-- Witness: cancelling with an empty handle is the identity, and a reset
from a fresh inactivity state leaves exactly one handled timeout. -/
theorem C7_timer_handles_amended_witness :
    cancelCountdown (initialState DEFAULT_CONFIG) = initialState DEFAULT_CONFIG ∧
    inactivityHandled (resetInactivityTimer ⟨none, [], 1⟩ 0) ∧
    (resetInactivityTimer ⟨none, [], 1⟩ 0).pending.length ≤ 1 := by
  refine ⟨C7_timer_handles_amended.2.1 _ rfl, ?_, ?_⟩
  · exact (C7_timer_handles_amended.2.2.2 ⟨none, [], 1⟩ 0 (by intro p hp; simp at hp)).1
  · exact (C7_timer_handles_amended.2.2.2 ⟨none, [], 1⟩ 0 (by intro p hp; simp at hp)).2

/-- C6: the manual fast path bypasses the cooldown and change-distance
checks but still requires raw length at least 10, and it fires at once
with no countdown, cancelling only the handled countdown; in the concrete
scenario two manual triggers 1000 ms apart both fire; and in any execution
over a well-formed timeline any two automatic triggers lie at least
30000 ms apart, so two automatic triggers within the cooldown window
never both fire. -/
theorem C6_manual_vs_automatic :
    (∀ (st : TrackerState) (env : Nat → String) (now : Nat), 10 ≤ (env now).length →
      forceTrigger st env now =
        ({ cancelCountdown st with lastAssessedText := env now, lastAssessmentTime := now },
         [(now, OutEvent.trigger true (env now))])) ∧
    (∀ (st : TrackerState) (env : Nat → String) (now : Nat), (env now).length < 10 →
      forceTrigger st env now = (st, [])) ∧
    (runTracker envManual twoForceEvents 300000).2 =
      [(100000, OutEvent.trigger true "manual prompt"),
       (101000, OutEvent.trigger true "manual prompt")] ∧
    (∀ (env : Nat → String) (events : List (Nat × ExtEvent)) (endTime : Nat),
      timeline events endTime →
      List.Pairwise autoSpaced (runTracker env events endTime).2) := by
  refine ⟨?_, ?_, by decide, ?_⟩
  · intro st env now h
    simp only [forceTrigger, executeAssessment]
    rw [if_pos h]
  · intro st env now h
    simp only [forceTrigger]
    rw [if_neg (by omega)]
  · intro env events endTime ht
    exact (runTracker_inv cooldownInv_conds env events endTime ht
      ⟨rfl, le_rfl, fun x hx => absurd hx (List.not_mem_nil x), List.Pairwise.nil⟩).2.2.2

/-- Witness: a manual trigger fires from a fresh tracker inside what would
be the cooldown window, and the two-manual scenario is auto-spaced. -/
theorem C6_manual_vs_automatic_witness :
    forceTrigger (initialState DEFAULT_CONFIG) envManual 5 =
      ({ cancelCountdown (initialState DEFAULT_CONFIG) with
          lastAssessedText := "manual prompt", lastAssessmentTime := 5 },
       [(5, OutEvent.trigger true "manual prompt")]) ∧
    List.Pairwise autoSpaced (runTracker envManual twoForceEvents 300000).2 := by
  constructor
  · exact C6_manual_vs_automatic.1 (initialState DEFAULT_CONFIG) envManual 5 (by decide)
  · refine C6_manual_vs_automatic.2.2.2 envManual twoForceEvents 300000 ⟨?_, ?_⟩
    · exact List.Chain.cons (by omega) (List.Chain.cons (by omega) List.Chain.nil)
    · intro p hp
      rcases List.mem_cons.mp hp with h | h
      · subst h; omega
      · have h' := List.mem_singleton.mp h
        subst h'; omega

/-- Counterexample to C8: the classifier sample does not prune the buffer.
After the sampling tick at 105000 the buffer still holds the entry that
arrived at 100000, which is not newer than the 1-second lookback window. -/
theorem C8_counterexample :
    (runTracker envLong staleEvents 105000).1.charTimestamps =
      [{ char := 'a', timestamp := 100000 }] ∧
    ¬(105000 - 100000 < 1000) := by
  exact ⟨by decide, by decide⟩

/-- C8 amended: along any execution the recent-history buffer holds at
most 10 entries and on overflow the oldest entry is removed first; the
classifier sample only reads the entries inside the 1-second window and
leaves the buffer unchanged — stale entries are evicted by the size cap,
not by sampling. -/
theorem C8_buffer_amended :
    (∀ (env : Nat → String) (events : List (Nat × ExtEvent)) (endTime : Nat),
      timeline events endTime →
      (runTracker env events endTime).1.charTimestamps.length ≤ 10) ∧
    (∀ (st : TrackerState) (c : Char) (now : Nat),
      st.isComposing = false → st.charTimestamps ≠ [] →
      st.charTimestamps.length = st.config.charBufferSize →
      (trackKeystroke st c now).charTimestamps =
        st.charTimestamps.tail ++ [{ char := c, timestamp := now }]) ∧
    (∀ (st : TrackerState) (now : Nat),
      (sampleVelocity st now).1.charTimestamps = st.charTimestamps) := by
  refine ⟨?_, ?_, ?_⟩
  · intro env events endTime ht
    exact (runTracker_inv bufferInv_conds env events endTime ht ⟨rfl, by decide⟩).2
  · intro st c now hcomp hne hlen
    have hover : st.config.charBufferSize <
        (st.charTimestamps ++ [({ char := c, timestamp := now } : CharTimestamp)]).length := by
      simp [← hlen]
    simp only [trackKeystroke, hcomp]
    rw [if_pos hover]
    cases hd : st.charTimestamps with
    | nil => exact absurd hd hne
    | cons x xs => simp [hd]
  · intro st now
    simp only [sampleVelocity]
    split <;> (try split) <;> (try split) <;> (try split)
    all_goals first
      | rfl
      | exact (onStateChange_cases st _ now).2.1

/-- Witness: the buffer bound on the stale scenario and the unchanged
buffer across a sample from the fresh tracker. -/
theorem C8_buffer_amended_witness :
    (runTracker envLong staleEvents 105000).1.charTimestamps.length ≤ 10 ∧
    (sampleVelocity (initialState DEFAULT_CONFIG) 0).1.charTimestamps = [] := by
  constructor
  · refine C8_buffer_amended.1 envLong staleEvents 105000 ⟨?_, ?_⟩
    · exact List.Chain.cons (by omega) (List.Chain.cons (by omega) List.Chain.nil)
    · intro p hp
      rcases List.mem_cons.mp hp with h | h
      · subst h; omega
      · have h' := List.mem_singleton.mp h
        subst h'; omega
  · exact C8_buffer_amended.2.2 (initialState DEFAULT_CONFIG) 0

/-- C9: a gate rejection at countdown expiry is silently dropped — no
trigger is emitted and the last-sent fields keep their values, only the
fired timers' bookkeeping differs; on accept both fields are set, together
and atomically with the forwarded trigger, to the candidate text and its
time; and along any execution the pair always equals the text and time of
the most recent emitted trigger (its initial values before the first), so
neither field is ever updated without the other. -/
theorem C9_atomic_updates :
    (∀ (st : TrackerState) (env : Nat → String) (e m : Nat),
      st.currentState = VelocityState.STOPPED →
      passesPreFilters st.config (env e) e st.lastAssessedText st.lastAssessmentTime = false →
      fireTimer st env e (TimerTask.countdownFire m) =
        ({ st with pending := st.pending.filter (fun p => p.id != m) }, [])) ∧
    (∀ (st : TrackerState) (env : Nat → String) (e m : Nat),
      st.currentState = VelocityState.STOPPED →
      passesPreFilters st.config (env e) e st.lastAssessedText st.lastAssessmentTime = true →
      fireTimer st env e (TimerTask.countdownFire m) =
        ({ st with
            lastAssessedText := env e
            lastAssessmentTime := e
            pending := st.pending.filter (fun p => p.id != m) },
         [(e, OutEvent.stateChange VelocityState.STOPPED 1),
          (e, OutEvent.trigger false (env e))])) ∧
    (∀ (env : Nat → String) (events : List (Nat × ExtEvent)) (endTime : Nat),
      timeline events endTime →
      (runTracker env events endTime).1.lastAssessedText =
        (lastTrigger (runTracker env events endTime).2).1 ∧
      (runTracker env events endTime).1.lastAssessmentTime =
        (lastTrigger (runTracker env events endTime).2).2) := by
  refine ⟨?_, ?_, ?_⟩
  · intro st env e m hstop hfail
    simp only [fireTimer]
    rw [if_pos hstop, if_neg (by simp [hfail])]
  · intro st env e m hstop hpass
    simp only [fireTimer, executeAssessment]
    rw [if_pos hstop, if_pos hpass, hstop]
  · intro env events endTime ht
    exact runTracker_inv atomicInv_conds env events endTime ht ⟨rfl, rfl⟩

/-- Witness: a rejected expiry (candidate below the length floor) leaves a
fresh tracker exactly as it was and emits nothing. -/
theorem C9_atomic_updates_witness :
    fireTimer (initialState DEFAULT_CONFIG) envManual 5 (TimerTask.countdownFire 0) =
      (initialState DEFAULT_CONFIG, []) := by
  rw [C9_atomic_updates.1 (initialState DEFAULT_CONFIG) envManual 5 0 rfl (by decide)]
  decide

/-- C10 (implicit): the manual fast path applies no denylist check — every
text of raw length at least 10 fires onTrigger, including "testing   "
(raw length 10) whose lower-cased trimmed form "testing" is a denylisted
placeholder; the automatic gate rejects that text, and on the
length-qualifying variant "testing        " the gate's rejection reason is
precisely the denylist check while forceTrigger still fires it. -/
theorem C10_manual_ignores_denylist :
    (∀ (st : TrackerState) (env : Nat → String) (now : Nat), 10 ≤ (env now).length →
      (forceTrigger st env now).2 = [(now, OutEvent.trigger true (env now))]) ∧
    (forceTrigger (initialState DEFAULT_CONFIG) (fun _ => "testing   ") 100000).2 =
      [(100000, OutEvent.trigger true "testing   ")] ∧
    jsTrim (jsToLower "testing   ") = "testing" ∧
    "testing" ∈ THROWAWAY_PHRASES ∧
    passesPreFilters DEFAULT_CONFIG "testing   " 100000 "" 0 = false ∧
    preFilterResult DEFAULT_CONFIG "testing        " 100000 "" 0 =
      some RejectReason.throwawayPhrase ∧
    (forceTrigger (initialState DEFAULT_CONFIG) (fun _ => "testing        ") 100000).2 =
      [(100000, OutEvent.trigger true "testing        ")] := by
  refine ⟨?_, by decide, by decide, by decide, by decide, by decide, by decide⟩
  intro st env now h
  simp only [forceTrigger, executeAssessment]
  rw [if_pos h]

/-- Witness: the general manual-path conclusion at a concrete input. -/
theorem C10_manual_ignores_denylist_witness :
    (forceTrigger (initialState DEFAULT_CONFIG) envManual 7).2 =
      [(7, OutEvent.trigger true "manual prompt")] :=
  C10_manual_ignores_denylist.1 (initialState DEFAULT_CONFIG) envManual 7 (by decide)

end VelocityTracker
